import Mathlib

/-!
Verification of the language-server session layer of the NeoNano editor
(`src/lsp.rs`, `src/document.rs`) against its natural-language specification.

The Rust code is shallowly embedded: pure message construction becomes Lean
functions, the two pump threads and the two mpsc queues become explicit state
(the outbound queue is the list of messages enqueued so far plus a closed
flag, the inbound queue is the list of frames that will ever arrive plus a
closed flag), and every `.unwrap()` that can fail becomes an explicit
`panic` outcome.
-/

namespace NeoNano

/-! ## Decimal rendering and parsing

Rust renders the `Content-Length` value with `format!("{}", s.len())`
(plain decimal, no sign) and the read pump parses it back with
`str::parse::<usize>()`.  We model rendering with `natDigitsAux` and parsing
with `parseNatChars` (digits only; the leading `+` that Rust also accepts is
not exercised by any frame the program ever builds). -/

/-- The ASCII digit character for `n < 10`. -/
def digitChar (n : Nat) : Char := Char.ofNat (48 + n)

/-- Decimal digits of `n`, most significant first, prepended to `acc`. -/
def natDigitsAux (n : Nat) (acc : List Char) : List Char :=
  if _h : n < 10 then digitChar n :: acc
  else natDigitsAux (n / 10) (digitChar (n % 10) :: acc)
termination_by n
decreasing_by exact Nat.div_lt_self (by omega) (by omega)

/-- Decimal rendering of a natural number, as Rust's `Display` for `usize`. -/
def natRepr (n : Nat) : String := ⟨natDigitsAux n []⟩

/-- Accumulating decimal value of a digit string. -/
def digitsToNatAux (acc : Nat) : List Char → Nat
  | [] => acc
  | c :: cs => digitsToNatAux (acc * 10 + (c.toNat - 48)) cs

/-- `str::parse::<usize>` on an exact digit string: fails on the empty string
and on any non-digit character. -/
def parseNatChars (cs : List Char) : Option Nat :=
  if cs.isEmpty then none
  else if cs.all Char.isDigit then some (digitsToNatAux 0 cs)
  else none

theorem digitsToNatAux_nil (a : Nat) : digitsToNatAux a [] = a := rfl

theorem digitsToNatAux_cons (a : Nat) (c : Char) (cs : List Char) :
    digitsToNatAux a (c :: cs) = digitsToNatAux (a * 10 + (c.toNat - 48)) cs := rfl

theorem digitChar_isDigit {m : Nat} (h : m < 10) : (digitChar m).isDigit = true := by
  interval_cases m <;> decide

theorem digitChar_toNat {m : Nat} (h : m < 10) : (digitChar m).toNat = 48 + m := by
  interval_cases m <;> decide

theorem natDigitsAux_ne_nil (n : Nat) (acc : List Char) : natDigitsAux n acc ≠ [] := by
  induction n, acc using natDigitsAux.induct with
  | case1 n acc h => rw [natDigitsAux, dif_pos h]; simp
  | case2 n acc h ih => rw [natDigitsAux, dif_neg h]; exact ih

theorem natDigitsAux_all_digits (n : Nat) (acc : List Char)
    (hacc : acc.all Char.isDigit = true) :
    (natDigitsAux n acc).all Char.isDigit = true := by
  induction n, acc using natDigitsAux.induct with
  | case1 n acc h =>
    rw [natDigitsAux, dif_pos h]
    simp only [List.all_cons, Bool.and_eq_true]
    exact ⟨digitChar_isDigit h, hacc⟩
  | case2 n acc h ih =>
    rw [natDigitsAux, dif_neg h]
    refine ih ?_
    simp only [List.all_cons, Bool.and_eq_true]
    exact ⟨digitChar_isDigit (Nat.mod_lt _ (by omega)), hacc⟩

/-- Number of decimal digits of `n`. -/
def decLen (n : Nat) : Nat :=
  if _h : n < 10 then 1 else decLen (n / 10) + 1
termination_by n
decreasing_by exact Nat.div_lt_self (by omega) (by omega)

theorem natDigitsAux_spec (n : Nat) (acc : List Char) :
    ∀ a : Nat, digitsToNatAux a (natDigitsAux n acc)
      = digitsToNatAux (a * 10 ^ decLen n + n) acc := by
  induction n, acc using natDigitsAux.induct with
  | case1 n acc h =>
    intro a
    rw [natDigitsAux, dif_pos h, decLen, dif_pos h]
    rw [digitsToNatAux_cons]
    rw [digitChar_toNat h]
    have harg : a * 10 + (48 + n - 48) = a * 10 ^ 1 + n := by
      rw [pow_one]; omega
    rw [harg]
  | case2 n acc h ih =>
    intro a
    rw [natDigitsAux, dif_neg h, decLen, dif_neg h, ih]
    rw [digitsToNatAux_cons]
    rw [digitChar_toNat (Nat.mod_lt n (by omega))]
    have h48 : 48 + n % 10 - 48 = n % 10 := by omega
    rw [h48]
    have harg : (a * 10 ^ decLen (n / 10) + n / 10) * 10 + n % 10
        = a * 10 ^ (decLen (n / 10) + 1) + (n / 10 * 10 + n % 10) := by
      rw [Nat.pow_succ]; ring
    have hdm : n / 10 * 10 + n % 10 = n := by omega
    rw [harg, hdm]

/-- Round trip: the pump's decimal parser recovers exactly the number the
sender rendered. -/
theorem parseNatChars_natDigits (n : Nat) :
    parseNatChars (natDigitsAux n []) = some n := by
  have hne := natDigitsAux_ne_nil n []
  have hall := natDigitsAux_all_digits n [] rfl
  have hval := natDigitsAux_spec n [] 0
  rw [Nat.zero_mul, Nat.zero_add, digitsToNatAux_nil] at hval
  unfold parseNatChars
  rcases hlist : natDigitsAux n [] with _ | ⟨c, t⟩
  · exact absurd hlist hne
  · rw [hlist] at hall hval
    simp [hall, hval]

/-! ## Frame construction (`LspConnector::send_request`, `src/lsp.rs:267-271`)

```rust
let s = serde_json::to_string(req).unwrap();
let payload = format!("Content-Length: {}\r\n\r\n{}", s.len(), s);
```
`s.len()` is the byte length of the UTF-8 string `s`, i.e. `utf8ByteSize`. -/

/-- The framed payload built by `send_request` for a serialized body `s`. -/
def mkPayload (s : String) : String :=
  "Content-Length: " ++ natRepr s.utf8ByteSize ++ "\r\n\r\n" ++ s

/-- An independent parser of a framed payload: expects the literal header,
reads the decimal digits, expects `\r\n\r\n`, and returns the declared
length together with the body that follows the separator. -/
def parseFrame (cs : List Char) : Option (Nat × List Char) :=
  if cs.take 16 = "Content-Length: ".data then
    let rest := cs.drop 16
    match parseNatChars (rest.takeWhile Char.isDigit) with
    | none => none
    | some n =>
      match rest.dropWhile Char.isDigit with
      | '\r' :: '\n' :: '\r' :: '\n' :: body => some (n, body)
      | _ => none
  else none

theorem takeWhile_append_all {p : Char → Bool} {l rest : List Char}
    (hl : l.all p = true) (hr : rest.head?.all (fun c => !p c) = true) :
    (l ++ rest).takeWhile p = l := by
  induction l with
  | nil =>
    cases rest with
    | nil => rfl
    | cons c t =>
      simp only [Option.all_some, List.head?] at hr
      simp [List.takeWhile, hr]
      cases hp : p c with
      | false => simp
      | true => rw [hp] at hr; simp at hr
  | cons c t ih =>
    simp only [List.all_cons, Bool.and_eq_true] at hl
    simp [List.takeWhile, hl.1, ih hl.2]

theorem dropWhile_append_all {p : Char → Bool} {l rest : List Char}
    (hl : l.all p = true) (hr : rest.head?.all (fun c => !p c) = true) :
    (l ++ rest).dropWhile p = rest := by
  induction l with
  | nil =>
    cases rest with
    | nil => rfl
    | cons c t =>
      simp only [Option.all_some, List.head?] at hr
      cases hp : p c with
      | false => simp [List.dropWhile, hp]
      | true => rw [hp] at hr; simp at hr
  | cons c t ih =>
    simp only [List.all_cons, Bool.and_eq_true] at hl
    simp [List.dropWhile, hl.1, ih hl.2]

/-- C2: For every outgoing message body, the decimal number written after the
`Content-Length` header of the payload built by `send_request` equals the
exact UTF-8 byte length of the body that follows the `\r\n\r\n` separator. -/
theorem contentLength_eq_bodyByteSize (s : String) :
    parseFrame (mkPayload s).data = some (s.utf8ByteSize, s.data) := by
  have hdata : (mkPayload s).data
      = "Content-Length: ".data ++ (natDigitsAux s.utf8ByteSize []
        ++ ('\r' :: '\n' :: '\r' :: '\n' :: s.data)) := by
    simp only [mkPayload, String.data_append, List.append_assoc]
    rfl
  have hall := natDigitsAux_all_digits s.utf8ByteSize [] rfl
  have hhead : ('\r' :: '\n' :: '\r' :: '\n' :: s.data).head?.all
      (fun c => !c.isDigit) = true := by rfl
  rw [parseFrame.eq_def, hdata]
  have h16 : ("Content-Length: ".data).length = 16 := by rfl
  rw [← h16, List.take_left, List.drop_left, if_pos rfl]
  simp only [takeWhile_append_all hall hhead, dropWhile_append_all hall hhead,
    parseNatChars_natDigits]

/-! ## UTF-8 byte layer

The read pump works on the raw byte stream of the subprocess's stdout:
`BufRead::read_line` decodes a line as UTF-8 (erroring on invalid bytes),
`read_exact` reads raw bytes, and `String::from_utf8` re-decodes them.
Bytes are modelled as `Nat` values (< 256 on every stream the program can
see), UTF-8 encoding by `charUtf8` and strict decoding (rejecting overlong
forms, surrogates and out-of-range code points, as Rust does) by
`decodeChar1`/`utf8Decode`. -/

/-- UTF-8 encoding of a single character. -/
def charUtf8 (c : Char) : List Nat :=
  let n := c.toNat
  if n < 0x80 then [n]
  else if n < 0x800 then [0xC0 + n / 64, 0x80 + n % 64]
  else if n < 0x10000 then [0xE0 + n / 4096, 0x80 + n / 64 % 64, 0x80 + n % 64]
  else [0xF0 + n / 262144, 0x80 + n / 4096 % 64, 0x80 + n / 64 % 64, 0x80 + n % 64]

def bytesOfChars : List Char → List Nat
  | [] => []
  | c :: cs => charUtf8 c ++ bytesOfChars cs

/-- The UTF-8 bytes of a string (Rust's `str::as_bytes`). -/
def strBytes (s : String) : List Nat := bytesOfChars s.data

/-- Decode one UTF-8 continuation byte sequence of length 1 after lead value `hi`. -/
def decodeCont1 (hi : Nat) : List Nat → Option (Char × List Nat)
  | b2 :: rest =>
    if 0x80 ≤ b2 ∧ b2 < 0xC0 then some (Char.ofNat (hi * 64 + (b2 - 0x80)), rest)
    else none
  | [] => none

/-- Decode two continuation bytes after lead value `hi` (three-byte form):
rejects overlong encodings and surrogate code points. -/
def decodeCont2 (hi : Nat) : List Nat → Option (Char × List Nat)
  | b2 :: b3 :: rest =>
    if (0x80 ≤ b2 ∧ b2 < 0xC0) ∧ (0x80 ≤ b3 ∧ b3 < 0xC0) then
      let cp := hi * 4096 + (b2 - 0x80) * 64 + (b3 - 0x80)
      if cp < 0x800 ∨ (0xD800 ≤ cp ∧ cp < 0xE000) then none
      else some (Char.ofNat cp, rest)
    else none
  | _ => none

/-- Decode three continuation bytes after lead value `hi` (four-byte form):
rejects overlong encodings and code points beyond U+10FFFF. -/
def decodeCont3 (hi : Nat) : List Nat → Option (Char × List Nat)
  | b2 :: b3 :: b4 :: rest =>
    if (0x80 ≤ b2 ∧ b2 < 0xC0) ∧ (0x80 ≤ b3 ∧ b3 < 0xC0) ∧ (0x80 ≤ b4 ∧ b4 < 0xC0) then
      let cp := hi * 262144 + (b2 - 0x80) * 4096 + (b3 - 0x80) * 64 + (b4 - 0x80)
      if cp < 0x10000 ∨ 0x110000 ≤ cp then none
      else some (Char.ofNat cp, rest)
    else none
  | _ => none

/-- Decode a single UTF-8 character from the front of a byte list. -/
def decodeChar1 : List Nat → Option (Char × List Nat)
  | [] => none
  | b :: rest =>
    if b < 0x80 then some (Char.ofNat b, rest)
    else if b < 0xC2 then none
    else if b < 0xE0 then decodeCont1 (b - 0xC0) rest
    else if b < 0xF0 then decodeCont2 (b - 0xE0) rest
    else if b < 0xF5 then decodeCont3 (b - 0xF0) rest
    else none

/-- Decode a whole byte list as UTF-8 (fuelled; each character consumes at
least one byte, so `bs.length` fuel always suffices). -/
def utf8DecodeList (fuel : Nat) (bs : List Nat) : Option (List Char) :=
  match fuel, bs with
  | _, [] => some []
  | 0, _ :: _ => none
  | fuel + 1, b :: rest =>
    match decodeChar1 (b :: rest) with
    | some (c, rest2) => (utf8DecodeList fuel rest2).map fun cs => c :: cs
    | none => none

/-- `String::from_utf8` / the UTF-8 decoding done by `read_line`. -/
def utf8Decode (bs : List Nat) : Option String :=
  (utf8DecodeList bs.length bs).map fun cs => ⟨cs⟩

theorem char_valid_nat (c : Char) :
    c.toNat < 0xd800 ∨ (0xdfff < c.toNat ∧ c.toNat < 0x110000) := by
  rcases c.valid with h | ⟨h1, h2⟩
  · exact Or.inl h
  · exact Or.inr ⟨h1, h2⟩

theorem char_toNat_lt (c : Char) : c.toNat < 0x110000 := by
  rcases char_valid_nat c with h | ⟨_, h⟩ <;> omega

/-- Decoding inverts encoding at the level of a single character, whatever
bytes follow. -/
theorem decodeChar1_charUtf8 (c : Char) (rest : List Nat) :
    decodeChar1 (charUtf8 c ++ rest) = some (c, rest) := by
  have hv := char_valid_nat c
  have hub := char_toNat_lt c
  by_cases h1 : c.toNat < 0x80
  · simp only [charUtf8, if_pos h1, List.cons_append, List.nil_append, decodeChar1,
      Char.ofNat_toNat]
  · by_cases h2 : c.toNat < 0x800
    · simp only [charUtf8, if_neg h1, if_pos h2, List.cons_append, List.nil_append,
        decodeChar1]
      rw [if_neg (by omega), if_neg (by omega), if_pos (by omega)]
      rw [decodeCont1, if_pos (by omega)]
      have harg : (0xC0 + c.toNat / 64 - 0xC0) * 64 + (0x80 + c.toNat % 64 - 0x80)
          = c.toNat := by omega
      rw [harg, Char.ofNat_toNat]
    · by_cases h3 : c.toNat < 0x10000
      · simp only [charUtf8, if_neg h1, if_neg h2, if_pos h3, List.cons_append,
          List.nil_append, decodeChar1]
        rw [if_neg (by omega), if_neg (by omega), if_neg (by omega), if_pos (by omega)]
        rw [decodeCont2, if_pos (by constructor <;> omega)]
        have harg : (0xE0 + c.toNat / 4096 - 0xE0) * 4096
            + (0x80 + c.toNat / 64 % 64 - 0x80) * 64 + (0x80 + c.toNat % 64 - 0x80)
            = c.toNat := by omega
        simp only [harg]
        rw [if_neg (by omega), Char.ofNat_toNat]
      · simp only [charUtf8, if_neg h1, if_neg h2, if_neg h3, List.cons_append,
          List.nil_append, decodeChar1]
        rw [if_neg (by omega), if_neg (by omega), if_neg (by omega), if_neg (by omega),
          if_pos (by omega)]
        rw [decodeCont3, if_pos (by refine ⟨⟨?_, ?_⟩, ⟨?_, ?_⟩, ?_, ?_⟩ <;> omega)]
        have harg : (0xF0 + c.toNat / 262144 - 0xF0) * 262144
            + (0x80 + c.toNat / 4096 % 64 - 0x80) * 4096
            + (0x80 + c.toNat / 64 % 64 - 0x80) * 64 + (0x80 + c.toNat % 64 - 0x80)
            = c.toNat := by omega
        simp only [harg]
        rw [if_neg (by omega), Char.ofNat_toNat]

theorem utf8DecodeList_bytesOfChars (cs : List Char) :
    ∀ fuel : Nat, cs.length ≤ fuel → utf8DecodeList fuel (bytesOfChars cs) = some cs := by
  induction cs with
  | nil => intro fuel _; cases fuel <;> rfl
  | cons c t ih =>
    intro fuel hfuel
    cases fuel with
    | zero => simp at hfuel
    | succ fuel =>
      have hbytes : bytesOfChars (c :: t) = charUtf8 c ++ bytesOfChars t := rfl
      have hne : charUtf8 c ++ bytesOfChars t ≠ [] := by
        have : decodeChar1 (charUtf8 c ++ bytesOfChars t) = some (c, bytesOfChars t) :=
          decodeChar1_charUtf8 c _
        intro hcon
        rw [hcon] at this
        simp [decodeChar1] at this
      rw [hbytes]
      rcases hl : charUtf8 c ++ bytesOfChars t with _ | ⟨b, bs⟩
      · exact absurd hl hne
      · rw [utf8DecodeList, ← hl, decodeChar1_charUtf8 c]
        show (utf8DecodeList fuel (bytesOfChars t)).map (fun cs => c :: cs) = some (c :: t)
        rw [ih fuel (by simpa using hfuel)]
        rfl

/-- Full UTF-8 round trip: decoding the encoded bytes of any string gives
back exactly that string. -/
theorem utf8Decode_strBytes (s : String) : utf8Decode (strBytes s) = some s := by
  have hlen : s.data.length ≤ (bytesOfChars s.data).length := by
    induction s.data with
    | nil => simp [bytesOfChars]
    | cons c t ih =>
      have : 1 ≤ (charUtf8 c).length := by
        by_cases h1 : c.toNat < 0x80
        · simp [charUtf8, h1]
        · by_cases h2 : c.toNat < 0x800
          · simp [charUtf8, h1, h2]
          · by_cases h3 : c.toNat < 0x10000
            · simp [charUtf8, h1, h2, h3]
            · simp [charUtf8, h1, h2, h3]
      simp only [bytesOfChars, List.length_append, List.length_cons]
      omega
  rw [utf8Decode, strBytes, utf8DecodeList_bytesOfChars s.data _ hlen]
  rfl

theorem charUtf8_length (c : Char) : (charUtf8 c).length = c.utf8Size := by
  have hub := char_toNat_lt c
  rw [Char.utf8Size]
  by_cases h1 : c.toNat < 0x80
  · have e1 : c.val ≤ UInt32.ofNatCore 127 Char.utf8Size.proof_1 :=
      show c.toNat ≤ 127 by omega
    rw [if_pos e1]; simp [charUtf8, h1]
  · have e1 : ¬ c.val ≤ UInt32.ofNatCore 127 Char.utf8Size.proof_1 :=
      fun hc => absurd (show c.toNat ≤ 127 from hc) (by omega)
    rw [if_neg e1]
    by_cases h2 : c.toNat < 0x800
    · have e2 : c.val ≤ UInt32.ofNatCore 2047 Char.utf8Size.proof_2 :=
        show c.toNat ≤ 2047 by omega
      rw [if_pos e2]; simp [charUtf8, h1, h2]
    · have e2 : ¬ c.val ≤ UInt32.ofNatCore 2047 Char.utf8Size.proof_2 :=
        fun hc => absurd (show c.toNat ≤ 2047 from hc) (by omega)
      rw [if_neg e2]
      by_cases h3 : c.toNat < 0x10000
      · have e3 : c.val ≤ UInt32.ofNatCore 65535 Char.utf8Size.proof_3 :=
          show c.toNat ≤ 65535 by omega
        rw [if_pos e3]; simp [charUtf8, h1, h2, h3]
      · have e3 : ¬ c.val ≤ UInt32.ofNatCore 65535 Char.utf8Size.proof_3 :=
          fun hc => absurd (show c.toNat ≤ 65535 from hc) (by omega)
        rw [if_neg e3]; simp [charUtf8, h1, h2, h3]

theorem bytesOfChars_append (a b : List Char) :
    bytesOfChars (a ++ b) = bytesOfChars a ++ bytesOfChars b := by
  induction a with
  | nil => rfl
  | cons c t ih => simp [bytesOfChars, ih]

theorem strBytes_append (a b : String) :
    strBytes (a ++ b) = strBytes a ++ strBytes b := by
  rw [strBytes, strBytes, strBytes, String.data_append, bytesOfChars_append]

/-- The number of UTF-8 bytes of a string equals Rust's `s.len()`, i.e.
`String.utf8ByteSize`: the two length models of this development agree. -/
theorem strBytes_length (s : String) : (strBytes s).length = s.utf8ByteSize := by
  cases s with
  | mk data =>
    show (bytesOfChars data).length = String.utf8ByteSize.go data
    induction data with
    | nil => rfl
    | cons c t ih =>
      simp only [bytesOfChars, List.length_append, charUtf8_length, ih]
      show _ = String.utf8ByteSize.go t + c.utf8Size
      omega

/-! ## The read pump (`LspConnector::start_process`, `src/lsp.rs:63-95`)

```rust
loop {
    buf.truncate(0);
    match f.read_line(&mut buf) {
        Ok(_) => {
            if !buf.to_lowercase().starts_with("content-length: ") { continue; }
            let len_str = buf.get(16..).unwrap().strip_suffix("\r\n").unwrap();
            let len: usize = len_str.parse().unwrap();
            let mut content: Vec<u8> = vec![0; len];
            f.consume("\r\n".len());
            match f.read_exact(content.as_mut_slice()) {
                Ok(_) => { let s = String::from_utf8(content).unwrap(); sender.send(s).unwrap(); }
                Err(e) => { break; }
            }
        }
        Err(e) => { break; }
    }
}
```

The subprocess's whole future stdout is a byte list.  `read_line` collects
bytes up to and including the first LF (`0x0A`), the whole rest at EOF, and
fails (an `Err`, hence a silent `break`) on invalid UTF-8.  Each `unwrap`
that can fail becomes a `panicked` outcome (the thread dies by panic);
`Err` arms become `stopped`.  The `buf.get(16..)` byte index is modelled as
a 16-character drop: a line passing the header check necessarily has the 16
ASCII header characters first (Rust's Unicode `to_lowercase` is modelled by
the character-wise `Char.toLower`, which agrees with it on the ASCII range
the check can distinguish). -/

/-- `read_line`: the bytes up to and including the first LF, plus the rest. -/
def takeLine (bs : List Nat) : List Nat × List Nat :=
  match bs with
  | [] => ([], [])
  | b :: rest =>
    if b = 10 then ([b], rest)
    else
      let p := takeLine rest
      (b :: p.1, p.2)

/-- `str::strip_suffix("\r\n")`. -/
def stripCrlf (l : List Char) : Option (List Char) :=
  match l.reverse with
  | '\n' :: '\r' :: t => some t.reverse
  | _ => none

inductive PumpStatus
  | running
  | stopped
  | panicked (msg : String)
deriving DecidableEq

structure PumpOut where
  emitted : List String
  status : PumpStatus
deriving DecidableEq

/-- The read pump, run for `fuel` iterations on the byte stream `stream`.
`emitted` is the list of messages sent to the inbound queue, in order;
`running` means the pump was still looping when the fuel ran out. -/
def pumpRun : Nat → List Nat → PumpOut
  | 0, _ => ⟨[], .running⟩
  | fuel + 1, stream =>
    let p := takeLine stream
    match utf8Decode p.1 with
    | none => ⟨[], .stopped⟩
    | some buf =>
      if (buf.data.map Char.toLower).take 16 = "content-length: ".data then
        match stripCrlf (buf.data.drop 16) with
        | none => ⟨[], .panicked "strip_suffix"⟩
        | some lenChars =>
          match parseNatChars lenChars with
          | none => ⟨[], .panicked "parse"⟩
          | some len =>
            let rest2 := p.2.drop 2
            if rest2.length < len then ⟨[], .stopped⟩
            else
              match utf8Decode (rest2.take len) with
              | none => ⟨[], .panicked "from_utf8"⟩
              | some s =>
                let out := pumpRun fuel (rest2.drop len)
                ⟨s :: out.emitted, out.status⟩
      else
        pumpRun fuel p.2

/-- A well-formed frame as emitted by a protocol-conforming subprocess:
header line with the body's exact byte count, blank separator, body. -/
def encodeFrame (s : String) : List Nat :=
  strBytes ("Content-Length: " ++ natRepr s.utf8ByteSize ++ "\r\n") ++
    strBytes "\r\n" ++ strBytes s

def encodeFrames : List String → List Nat
  | [] => []
  | s :: rest => encodeFrame s ++ encodeFrames rest

theorem takeLine_append (l r : List Nat) (h : (10 : Nat) ∉ l) :
    takeLine (l ++ 10 :: r) = (l ++ [10], r) := by
  induction l with
  | nil => simp [takeLine]
  | cons b t ih =>
    have hb : b ≠ 10 := fun hc => h (hc ▸ List.mem_cons_self b t)
    have ht : (10 : Nat) ∉ t := fun hc => h (List.mem_cons_of_mem b hc)
    simp [takeLine, hb, ih ht]

theorem pumpRun_nil (fuel : Nat) : pumpRun fuel [] = ⟨[], .running⟩ := by
  induction fuel with
  | zero => rfl
  | succ fuel ih =>
    show pumpRun fuel [] = _
    exact ih

theorem isDigit_toNat {c : Char} (h : c.isDigit = true) :
    48 ≤ c.toNat ∧ c.toNat ≤ 57 := by
  rw [Char.isDigit, Bool.and_eq_true, decide_eq_true_eq, decide_eq_true_eq] at h
  exact ⟨h.1, h.2⟩

theorem mem_bytesOfChars_digits {l : List Char} (h : l.all Char.isDigit = true) :
    (10 : Nat) ∉ bytesOfChars l := by
  induction l with
  | nil => simp [bytesOfChars]
  | cons c t ih =>
    simp only [List.all_cons, Bool.and_eq_true] at h
    have hb := isDigit_toNat h.1
    have hc : charUtf8 c = [c.toNat] := by
      rw [charUtf8]
      exact if_pos (by omega)
    intro hmem
    rw [bytesOfChars, hc] at hmem
    rcases List.mem_append.mp hmem with h10 | h10
    · simp at h10; omega
    · exact ih h.2 h10

theorem stripCrlf_append (l : List Char) : stripCrlf (l ++ ['\r', '\n']) = some l := by
  rw [stripCrlf]
  rw [List.reverse_append]
  simp

/-- One well-formed frame at the head of the stream costs exactly one pump
iteration, emits exactly its body, and leaves the rest of the stream. -/
theorem pumpRun_frame (s : String) (tail : List Nat) (fuel : Nat) :
    pumpRun (fuel + 1) (encodeFrame s ++ tail)
      = ⟨s :: (pumpRun fuel tail).emitted, (pumpRun fuel tail).status⟩ := by
  have hdrdata : ("Content-Length: " ++ natRepr s.utf8ByteSize ++ "\r\n").data
      = "Content-Length: ".data ++ natDigitsAux s.utf8ByteSize [] ++ ['\r', '\n'] := by
    rw [String.data_append, String.data_append]; rfl
  have hdig := natDigitsAux_all_digits s.utf8ByteSize [] rfl
  have hcrlf : bytesOfChars ['\r', '\n'] = [13, 10] := rfl
  have hdata2 : ("\r\n" : String).data = ['\r', '\n'] := rfl
  have hline : strBytes ("Content-Length: " ++ natRepr s.utf8ByteSize ++ "\r\n")
      = bytesOfChars "Content-Length: ".data
        ++ (bytesOfChars (natDigitsAux s.utf8ByteSize []) ++ [13, 10]) := by
    rw [strBytes, hdrdata, bytesOfChars_append, bytesOfChars_append, hcrlf,
      List.append_assoc]
  have hstream : encodeFrame s ++ tail
      = (bytesOfChars "Content-Length: ".data
          ++ (bytesOfChars (natDigitsAux s.utf8ByteSize []) ++ [13]))
        ++ 10 :: (13 :: 10 :: (strBytes s ++ tail)) := by
    rw [encodeFrame, hline, show strBytes "\r\n" = [13, 10] from rfl]
    simp only [List.append_assoc, List.cons_append, List.nil_append]
  have hno10 : (10 : Nat) ∉ bytesOfChars "Content-Length: ".data
      ++ (bytesOfChars (natDigitsAux s.utf8ByteSize []) ++ [13]) := by
    intro hmem
    rcases List.mem_append.mp hmem with hm | hm
    · revert hm; decide
    · rcases List.mem_append.mp hm with hm2 | hm2
      · exact mem_bytesOfChars_digits hdig hm2
      · simp at hm2
  have hlineeq : (bytesOfChars "Content-Length: ".data
        ++ (bytesOfChars (natDigitsAux s.utf8ByteSize []) ++ [13])) ++ [10]
      = strBytes ("Content-Length: " ++ natRepr s.utf8ByteSize ++ "\r\n") := by
    rw [hline]
    simp only [List.append_assoc, List.cons_append, List.nil_append]
  have hlen16 : ("Content-Length: ".data.map Char.toLower).length = 16 := by decide
  have hlen16d : ("Content-Length: ".data).length = 16 := by decide
  have hmatch : ((("Content-Length: " ++ natRepr s.utf8ByteSize ++ "\r\n").data.map
      Char.toLower).take 16) = "content-length: ".data := by
    rw [hdrdata, List.map_append, List.map_append, List.append_assoc, ← hlen16,
      List.take_left]
    decide
  have hdrop : (("Content-Length: " ++ natRepr s.utf8ByteSize ++ "\r\n").data).drop 16
      = natDigitsAux s.utf8ByteSize [] ++ ['\r', '\n'] := by
    rw [hdrdata, List.append_assoc, ← hlen16d, List.drop_left]
  rw [hstream, pumpRun, takeLine_append _ _ hno10]
  dsimp only []
  rw [hlineeq, utf8Decode_strBytes]
  dsimp only []
  rw [if_pos hmatch, hdrop, stripCrlf_append]
  dsimp only []
  rw [parseNatChars_natDigits]
  dsimp only [List.drop]
  rw [if_neg (by simp only [List.length_append, strBytes_length]; omega)]
  rw [← strBytes_length s, List.take_left, List.drop_left, utf8Decode_strBytes]

/-- The pump emits, in order, exactly the bodies of the well-formed frames
the subprocess writes, and keeps running afterwards. -/
theorem pumpRun_encodeFrames (bodies : List String) (extra : Nat) :
    pumpRun (bodies.length + extra) (encodeFrames bodies) = ⟨bodies, .running⟩ := by
  induction bodies generalizing extra with
  | nil => simpa using pumpRun_nil extra
  | cons s t ih =>
    have hfuel : (s :: t).length + extra = (t.length + extra) + 1 := by
      simp [List.length_cons]; omega
    rw [encodeFrames, hfuel, pumpRun_frame, ih]

/-- A line that fails the header check is discarded and the pump moves on to
the rest of the stream. -/
theorem pumpRun_skips_line (w : String) (tail : List Nat) (fuel : Nat)
    (hnl : (10 : Nat) ∉ strBytes w)
    (hmm : ((w ++ "\n").data.map Char.toLower).take 16 ≠ "content-length: ".data) :
    pumpRun (fuel + 1) (strBytes (w ++ "\n") ++ tail) = pumpRun fuel tail := by
  have hb : strBytes (w ++ "\n") = strBytes w ++ [10] := by
    rw [strBytes_append]; rfl
  have hs : strBytes (w ++ "\n") ++ tail = strBytes w ++ 10 :: tail := by
    rw [hb]
    simp only [List.append_assoc, List.cons_append, List.nil_append]
  rw [hs, pumpRun, takeLine_append _ _ hnl]
  dsimp only []
  rw [show strBytes w ++ [10] = strBytes (w ++ "\n") from hb.symm, utf8Decode_strBytes]
  dsimp only []
  rw [if_neg hmm]

/-- The header predicate exactly as the claim words it: a case-insensitive
match of the 15-character prefix "content-length:" (no trailing space). -/
def claimHeaderMatch (l : List Char) : Bool :=
  decide ((l.map Char.toLower).take 15 = "content-length:".data)

/-- C5 (counterexample): a header line that does match the claim's
case-insensitive prefix "content-length:" — but without the trailing space
the code actually requires — is discarded: the correctly framed 2-byte body
"hi" that follows it is never enqueued (the pump just keeps scanning). -/
theorem readPump_claimPrefix_counterexample :
    claimHeaderMatch ("content-length:2\r\n".data) = true
    ∧ pumpRun 5 (strBytes "content-length:2\r\n\r\nhi") = ⟨[], .running⟩ := by
  constructor
  · decide
  · decide

/-- C5 (amended): the pump's header check requires the case-insensitive
prefix "content-length: " including the trailing space.  With that
amendment the claim holds: every line failing the check is discarded and
the pump continues with the rest of the stream; for each line passing it,
the pump parses the decimal length, skips the separator, reads exactly that
many bytes, decodes them as UTF-8 and enqueues the string inbound — so a
stream of well-formed frames is delivered exactly, in emission order. -/
theorem readPump_frames_in_order :
    (∀ (bodies : List String) (extra : Nat),
        pumpRun (bodies.length + extra) (encodeFrames bodies)
          = ⟨bodies, .running⟩)
    ∧ (∀ (w : String) (tail : List Nat) (fuel : Nat),
        (10 : Nat) ∉ strBytes w →
        ((w ++ "\n").data.map Char.toLower).take 16 ≠ "content-length: ".data →
        pumpRun (fuel + 1) (strBytes (w ++ "\n") ++ tail) = pumpRun fuel tail) :=
  ⟨pumpRun_encodeFrames, pumpRun_skips_line⟩

theorem readPump_frames_in_order_witness :
    pumpRun (2 + 1) (encodeFrames ["hi", "ok"]) = ⟨["hi", "ok"], .running⟩
    ∧ pumpRun (0 + 1) (strBytes ("junk" ++ "\n") ++ []) = pumpRun 0 [] :=
  ⟨readPump_frames_in_order.1 ["hi", "ok"] 1,
   readPump_frames_in_order.2 "junk" [] 0 (by decide) (by decide)⟩

/-- C6 (counterexample): a header line whose length field is not a decimal
number does not terminate the pump "silently without panicking" — the
`len_str.parse().unwrap()` panics the pump thread. -/
theorem readPump_badLength_counterexample :
    pumpRun 1 (strBytes "Content-Length: abc\r\n\r\nxy")
      = ⟨[], .panicked "parse"⟩ := by decide

/-- C6 (amended): on an I/O failure (an invalid-UTF-8 header line read, or a
short read of the body) the pump terminates silently; on a parse failure (a
non-decimal length field, a header line lacking the \r\n suffix, or a body
that is not valid UTF-8) the pump thread dies by panic.  In every case the
pump stops without having enqueued anything further, so the inbound queue
produces no more messages. -/
theorem readPump_failure_modes :
    pumpRun 1 [255, 10] = ⟨[], .stopped⟩
    ∧ pumpRun 1 (strBytes "Content-Length: 10\r\n\r\nabc") = ⟨[], .stopped⟩
    ∧ pumpRun 1 (strBytes "Content-Length: abc\r\n\r\nxy") = ⟨[], .panicked "parse"⟩
    ∧ pumpRun 1 (strBytes "content-length: 5\n\r\nabcde")
        = ⟨[], .panicked "strip_suffix"⟩
    ∧ pumpRun 1 (strBytes "Content-Length: 2\r\n\r\n" ++ [255, 255])
        = ⟨[], .panicked "from_utf8"⟩ := by
  refine ⟨by decide, by decide, by decide, by decide, by decide⟩

/-! ## JSON values and reply decoding

Inbound messages are strings that the Session parses with
`serde_json::from_str::<Response>`.  A frame is modelled either as the JSON
value the string parses to (`Frame.json`) or as `Frame.malformed` for a
string that is not valid JSON, so the Session-side decoding logic
(`Response`, `Hover` deserialization) is embedded exactly while textual
JSON parsing itself stays abstract. -/

inductive Json where
  | null
  | bool (b : Bool)
  | num (n : Int)
  | str (s : String)
  | arr (xs : List Json)
  | obj (fields : List (String × Json))

/-- First binding of a key in a JSON object. -/
def lookupField : List (String × Json) → String → Option Json
  | [], _ => none
  | (k', v) :: rest, k => if k' = k then some v else lookupField rest k

def Json.getField? : Json → String → Option Json
  | .obj fields, k => lookupField fields k
  | _, _ => none

/-- `struct Response` (src/lsp.rs:32-37): `jsonrpc` is mandatory, `result`
and `error` are optional (missing or `null` both deserialize to `None`);
unknown fields such as `id` are ignored by serde's default behaviour. -/
structure Response where
  jsonrpc : String
  result : Option Json
  error : Option Json

/-- serde's `Option<Value>` field handling: absent or `null` becomes `None`. -/
def optJson : Option Json → Option Json
  | some .null => none
  | some v => some v
  | none => none

def parseResponse (j : Json) : Option Response :=
  match j with
  | .obj _ =>
    match j.getField? "jsonrpc" with
    | some (.str v) =>
      some { jsonrpc := v, result := optJson (j.getField? "result"),
             error := optJson (j.getField? "error") }
    | _ => none
  | _ => none

/-! lsp_types hover data model, as deserialized by
`serde_json::from_value::<Hover>` in `LspConnector::hover`. -/

inductive MarkupKind where
  | plainText
  | markdown
deriving DecidableEq

inductive MarkedString where
  | str (s : String)
  | langString (language : String) (value : String)
deriving DecidableEq

structure MarkupContent where
  kind : MarkupKind
  value : String
deriving DecidableEq

inductive HoverContents where
  | scalar (m : MarkedString)
  | array (ms : List MarkedString)
  | markup (m : MarkupContent)
deriving DecidableEq

structure LspPosition where
  line : Nat
  character : Nat
deriving DecidableEq

structure LspRange where
  start : LspPosition
  stop : LspPosition
deriving DecidableEq

structure Hover where
  contents : HoverContents
  range : Option LspRange
deriving DecidableEq

def parseMarkupKind : Json → Option MarkupKind
  | .str "plaintext" => some .plainText
  | .str "markdown" => some .markdown
  | _ => none

def parseMarkedString (j : Json) : Option MarkedString :=
  match j with
  | .str s => some (.str s)
  | .obj _ =>
    match j.getField? "language", j.getField? "value" with
    | some (.str l), some (.str v) => some (.langString l v)
    | _, _ => none
  | _ => none

def parseMarkedStringList : List Json → Option (List MarkedString)
  | [] => some []
  | j :: rest =>
    match parseMarkedString j, parseMarkedStringList rest with
    | some m, some ms => some (m :: ms)
    | _, _ => none

def parseMarkupContent (j : Json) : Option MarkupContent :=
  match j with
  | .obj _ =>
    match j.getField? "kind", j.getField? "value" with
    | some kj, some (.str v) =>
      (parseMarkupKind kj).map fun k => ⟨k, v⟩
    | _, _ => none
  | _ => none

/-- serde's untagged deserialization of `HoverContents`, trying the variants
in declaration order: `Scalar(MarkedString)`, `Array(Vec<MarkedString>)`,
`Markup(MarkupContent)`. -/
def parseHoverContents (j : Json) : Option HoverContents :=
  match parseMarkedString j with
  | some m => some (.scalar m)
  | none =>
    match j with
    | .arr xs => (parseMarkedStringList xs).map .array
    | _ => (parseMarkupContent j).map .markup

def parseNatField (j : Json) : Option Nat :=
  match j with
  | .num n => if 0 ≤ n then some n.toNat else none
  | _ => none

def parseLspPosition (j : Json) : Option LspPosition :=
  match parseNatField (j.getField? "line" |>.getD .null),
        parseNatField (j.getField? "character" |>.getD .null) with
  | some l, some c => some ⟨l, c⟩
  | _, _ => none

def parseLspRange (j : Json) : Option LspRange :=
  match parseLspPosition (j.getField? "start" |>.getD .null),
        parseLspPosition (j.getField? "end" |>.getD .null) with
  | some a, some b => some ⟨a, b⟩
  | _, _ => none

/-- `serde_json::from_value::<Hover>`: an object with mandatory `contents`
and optional `range`. -/
def parseHover (j : Json) : Option Hover :=
  match j with
  | .obj _ =>
    match j.getField? "contents" with
    | some cj =>
      match parseHoverContents cj with
      | some contents =>
        match j.getField? "range" with
        | none => some ⟨contents, none⟩
        | some .null => some ⟨contents, none⟩
        | some rj => (parseLspRange rj).map fun r => ⟨contents, some r⟩
      | none => none
    | none => none
  | _ => none

/-- An inbound queue element: the string either parses as JSON or not. -/
inductive Frame where
  | json (j : Json)
  | malformed (txt : String)

/-- `serde_json::from_str::<Response>` on an inbound string. -/
def frameToResponse : Frame → Option Response
  | .json j => parseResponse j
  | .malformed _ => none

/-- The decoding done on the reply in `LspConnector::hover` (lsp.rs:257-263):
parse as `Response`, take its `result`, parse that as `Hover`. -/
def decodeHover (f : Frame) : Option Hover :=
  match frameToResponse f with
  | some resp =>
    match resp.result with
    | some v => parseHover v
    | none => none
  | none => none

/-! ## Client capabilities (the `InitializeParams` built in `LspConnector::init`)

Field names follow `lsp_types`.  Every capability field the code sets to
`None` keeps its name; its inner type is irrelevant to the value built (it
is never `Some`), so it is modelled as `Option Unit`. -/

structure TextDocumentSyncClientCapabilities where
  dynamic_registration : Option Bool
  will_save : Option Bool
  will_save_wait_until : Option Bool
  did_save : Option Bool
deriving DecidableEq

structure HoverClientCapabilities where
  dynamic_registration : Option Bool
  content_format : Option (List MarkupKind)
deriving DecidableEq

structure WorkspaceClientCapabilities where
  apply_edit : Option Unit
  workspace_edit : Option Unit
  did_change_configuration : Option Unit
  did_change_watched_files : Option Unit
  symbol : Option Unit
  execute_command : Option Unit
  workspace_folders : Option Bool
  configuration : Option Unit
  semantic_tokens : Option Unit
  code_lens : Option Unit
  file_operations : Option Unit
  inline_value : Option Unit
  inlay_hint : Option Unit
  diagnostic : Option Unit
deriving DecidableEq

structure TextDocumentClientCapabilities where
  synchronization : Option TextDocumentSyncClientCapabilities
  completion : Option Unit
  hover : Option HoverClientCapabilities
  signature_help : Option Unit
  references : Option Unit
  document_highlight : Option Unit
  document_symbol : Option Unit
  formatting : Option Unit
  range_formatting : Option Unit
  on_type_formatting : Option Unit
  declaration : Option Unit
  definition : Option Unit
  type_definition : Option Unit
  implementation : Option Unit
  code_action : Option Unit
  code_lens : Option Unit
  document_link : Option Unit
  color_provider : Option Unit
  rename : Option Unit
  publish_diagnostics : Option Unit
  folding_range : Option Unit
  selection_range : Option Unit
  linked_editing_range : Option Unit
  call_hierarchy : Option Unit
  semantic_tokens : Option Unit
  moniker : Option Unit
  type_hierarchy : Option Unit
  inline_value : Option Unit
  inlay_hint : Option Unit
  diagnostic : Option Unit
deriving DecidableEq

structure ClientCapabilities where
  workspace : Option WorkspaceClientCapabilities
  text_document : Option TextDocumentClientCapabilities
  window : Option Unit
  general : Option Unit
  experimental : Option Unit
deriving DecidableEq

/-- The exact capabilities value built in `LspConnector::init`
(src/lsp.rs:151-211). -/
def initCapabilities : ClientCapabilities where
  workspace := some
    { apply_edit := none
      workspace_edit := none
      did_change_configuration := none
      did_change_watched_files := none
      symbol := none
      execute_command := none
      workspace_folders := some true
      configuration := none
      semantic_tokens := none
      code_lens := none
      file_operations := none
      inline_value := none
      inlay_hint := none
      diagnostic := none }
  text_document := some
    { synchronization := some
        { dynamic_registration := some true
          will_save := none
          will_save_wait_until := none
          did_save := none }
      completion := none
      hover := some
        { dynamic_registration := some true
          content_format := some [MarkupKind.plainText] }
      signature_help := none
      references := none
      document_highlight := none
      document_symbol := none
      formatting := none
      range_formatting := none
      on_type_formatting := none
      declaration := none
      definition := none
      type_definition := none
      implementation := none
      code_action := none
      code_lens := none
      document_link := none
      color_provider := none
      rename := none
      publish_diagnostics := none
      folding_range := none
      selection_range := none
      linked_editing_range := none
      call_hierarchy := none
      semantic_tokens := none
      moniker := none
      type_hierarchy := none
      inline_value := none
      inlay_hint := none
      diagnostic := none }
  window := none
  general := none
  experimental := none

/-! ## Outgoing messages (`struct Request`, src/lsp.rs:21-30 and 298-322) -/

/-- The structured params the program ever sends; their JSON serialization
shapes are fixed by `lsp_types`' `Serialize` implementations. -/
inductive Params where
  | initParams (caps : ClientCapabilities)
  | inited
  | didOpen (uri : String) (languageId : String) (version : Int) (text : String)
  | hoverP (uri : String) (line : Nat) (character : Nat)
deriving DecidableEq

/-- `static JSON_RPC: &str = "2.0"` (src/lsp.rs:19). -/
def JSON_RPC : String := "2.0"

/-- An outgoing message.  `Params.inited` stands for `InitializedParams {}`,
which serializes as the empty JSON object — the `initialized` notification
goes out with `"params":{}` present, not with the field absent
(`from_notification` always wraps its params in `Some`). -/
structure Request where
  jsonrpc : String
  method : String
  params : Option Params
  id : Option Int
deriving DecidableEq

def Request.from_request (method : String) (id : Int) (params : Params) : Request :=
  { jsonrpc := JSON_RPC, method := method, params := some params, id := some id }

def Request.from_notification (method : String) (params : Params) : Request :=
  { jsonrpc := JSON_RPC, method := method, params := some params, id := none }

/-! ## The connector (`struct LspConnector`, src/lsp.rs:39-296)

State model of the threaded transport:
* `sent` is the sequence of messages successfully enqueued on the outbound
  channel (`tx`), in order; `outClosed` is true when the write pump has
  died (its `stdin.write_all(..).unwrap()` panicked, dropping the
  receiver), in which case `tx.send(..).unwrap()` in `send_request`
  panics.
* `inbox` is the full future of the inbound channel (`rx`): every frame the
  read pump will ever deliver, in order; `inClosed` is true when the read
  pump has died, so that once `inbox` is exhausted `try_recv` reports
  `Disconnected` instead of `Empty`.
An operation's result is an `Outcome`: `ok`, `panic` (an `unwrap` fired in
the calling thread), or `blocked` (the poll loop in `recv` sleeps forever
because the queue is empty but open and no further message ever comes).
`Url::try_from("file:///" + filename).unwrap()` is modelled as total:
the absolute file paths the editor passes always form valid file URLs. -/

structure LspConnector where
  initialized : Bool
  outClosed : Bool
  sent : List Request
  inbox : List Frame
  inClosed : Bool
  lang : String
  filename : String

inductive Outcome (α : Type) where
  | ok (a : α)
  | panic (msg : String)
  | blocked

def Outcome.bind : Outcome α → (α → Outcome β) → Outcome β
  | .ok a, f => f a
  | .panic m, _ => .panic m
  | .blocked, _ => .blocked

/-- `pub fn is_initialized(&self) -> bool` (src/lsp.rs:139-141). -/
def LspConnector.is_initialized (c : LspConnector) : Bool := c.initialized

/-- `fn send_request(&self, req: &Request)` (src/lsp.rs:267-271): frames the
serialized body (see `mkPayload`) and does `self.tx.send(payload).unwrap()`
— a panic if the write pump is dead. -/
def LspConnector.send_request (c : LspConnector) (r : Request) : Outcome LspConnector :=
  if c.outClosed then .panic "tx.send failed"
  else .ok { c with sent := c.sent ++ [r] }

inductive RecvOutcome where
  | ok (f : Frame) (c : LspConnector)
  | err
  | blocked

/-- `fn recv(&self)` (src/lsp.rs:280-295) as a one-shot outcome over the
whole future of the queue: the next frame if one ever arrives, `err`
(an `anyhow` error returned to the caller) if the queue is exhausted and
closed, `blocked` — sleep 100ms and retry, forever — if it is exhausted
but open. -/
def LspConnector.recv (c : LspConnector) : RecvOutcome :=
  match c.inbox with
  | f :: rest => .ok f { c with inbox := rest }
  | [] => if c.inClosed then .err else .blocked

/-- The same poll loop with an explicit poll budget, to state how fast a
dead transport is noticed: `none` means all polls found the queue empty
and the loop is still sleeping/retrying. -/
def recvLoop : Nat → LspConnector → Option (Except String (Frame × LspConnector))
  | 0, _ => none
  | fuel + 1, c =>
    match c.inbox with
    | f :: rest => some (.ok (f, { c with inbox := rest }))
    | [] =>
      if c.inClosed then some (.error "Failed to receive LSP response")
      else recvLoop fuel c

/-- The `initialize` request: id 0, the capabilities of
`initCapabilities`. -/
def initRequest : Request :=
  Request.from_request "initialize" 0 (.initParams initCapabilities)

/-- The `initialized` notification (`InitializedParams {}`). -/
def initedNotification : Request :=
  Request.from_notification "initialized" .inited

/-- The `textDocument/didOpen` notification: uri `file:///` + filename,
language id, version 0, the full snapshot text. -/
def didOpenNotification (lang filename text : String) : Request :=
  Request.from_notification "textDocument/didOpen"
    (.didOpen ("file:///" ++ filename) lang 0 text)

/-- The hover request: fixed id 1, uri `file:///` + filename, zero-based
line/character. -/
def hoverRequest (filename : String) (line character : Nat) : Request :=
  Request.from_request "textDocument/hover" 1
    (.hoverP ("file:///" ++ filename) line character)

/-- `pub fn init(&mut self, current_text: String)` (src/lsp.rs:143-239):
send `initialize`, `self.recv().unwrap()` (a panic if the transport is
dead), send `initialized`, send `didOpen`, set the flag.  There is no
check of `self.initialized` anywhere in this function. -/
def LspConnector.init (c : LspConnector) (current_text : String) : Outcome LspConnector :=
  (c.send_request initRequest).bind fun c1 =>
    match c1.recv with
    | .err => .panic "Result::unwrap on Err"
    | .blocked => .blocked
    | .ok _ c2 =>
      (c2.send_request initedNotification).bind fun c3 =>
        (c3.send_request (didOpenNotification c3.lang c3.filename current_text)).bind
          fun c4 => .ok { c4 with initialized := true }

/-- `pub fn hover(&self, line: u32, character: u32) -> Option<Hover>`
(src/lsp.rs:241-265): send the hover request, then
`self.recv().unwrap_or_default()` — a dead transport yields the empty
string, which fails to parse, hence `None` — and decode the reply. -/
def LspConnector.hover (c : LspConnector) (line character : Nat) :
    Outcome (Option Hover × LspConnector) :=
  (c.send_request (hoverRequest c.filename line character)).bind fun c1 =>
    match c1.recv with
    | .ok f c2 => .ok (decodeHover f, c2)
    | .err => .ok (none, c1)
    | .blocked => .blocked

/-! ## The document façade (`Document::hover`, src/document.rs:246-282) -/

structure Position where
  x : Nat
  y : Nat
deriving DecidableEq

/-- The floating tooltip item built in `Document::hover`.  The snapshot does
not contain `FloatingItem::new` itself; from its call site it is the plain
constructor of position, width, height and message lines.  Width counts
grapheme clusters in the source; character count is used here (no claim
depends on the width value). -/
structure FloatingItem where
  pos : Position
  width : Nat
  height : Nat
  msg : List String
deriving DecidableEq

def FloatingItem.new (pos : Position) (width height : Nat) (msg : List String) :
    FloatingItem :=
  ⟨pos, width, height, msg⟩

/-- Rust's `str::lines()`: split on `\n`, drop one trailing empty piece
(a trailing newline produces no extra line), strip a trailing `\r` from
each line. -/
def rustLines (s : String) : List String :=
  let parts := s.splitOn "\n"
  let parts := if parts.getLast? = some "" then parts.dropLast else parts
  parts.map fun l => if l.endsWith "\r" then l.dropRight 1 else l

/-- `Document`: only the fields Document::hover touches; a row is its text
(`Row::as_str`, an accessor not in the snapshot, returns the row's string
content). -/
structure Document where
  rows : List String
  floatings : List FloatingItem
  lsp : Option LspConnector

/-- The `match hover.contents` statement of `Document::hover`
(src/document.rs:253-280): only the `Markup` arm builds a tooltip
(clearing any previous floatings and appending exactly one item); the
`Scalar` and `Array` arms do nothing; a `None` hover result does
nothing. -/
def renderHover (d : Document) (x y : Nat) (res : Option Hover × LspConnector) :
    Document :=
  match res.1 with
  | some h =>
    match h.contents with
    | .scalar _ => { d with lsp := some res.2 }
    | .markup content =>
      let txt := content.value
      let width := ((rustLines txt).map String.length).foldr max 0
      let kept := (rustLines txt).filter fun l => !l.isEmpty
      { d with
        lsp := some res.2,
        floatings := [FloatingItem.new ⟨x, y + 1⟩ width kept.length kept] }
    | .array _ => { d with lsp := some res.2 }
  | none => { d with lsp := some res.2 }

/-- `pub fn hover(&mut self, x: u32, y: u32)` (src/document.rs:246-282):
if there is a connector and it is not initialized, run the full handshake
with the rows joined by `\r\n`; then always run the hover exchange with
(line, character) = (y, x); render the result per `renderHover`. -/
def Document.hover (d : Document) (x y : Nat) : Outcome Document :=
  match d.lsp with
  | none => .ok d
  | some lsp0 =>
    let step1 : Outcome LspConnector :=
      if ¬ lsp0.is_initialized then
        lsp0.init (String.intercalate "\r\n" d.rows)
      else .ok lsp0
    step1.bind fun lsp1 =>
      (lsp1.hover y x).bind fun res => .ok (renderHover d x y res)

/-! ## Concrete fixtures and projection helpers -/

/-- A well-formed `initialize` reply, as in the spec's Scenario A. -/
def okReply : Frame := .json (.obj
  [("jsonrpc", .str "2.0"), ("id", .num 0),
   ("result", .obj [("capabilities", .obj [])])])

/-- A fresh connector as `LspConnector::new` returns it, with a given future
inbound queue. -/
def mkConn (lang fn : String) (inbox : List Frame) : LspConnector :=
  { initialized := false, outClosed := false, sent := [], inbox := inbox,
    inClosed := false, lang := lang, filename := fn }

def sentMethodsOf : Outcome LspConnector → List String
  | .ok c => c.sent.map Request.method
  | _ => []

def initializedOf : Outcome LspConnector → Bool
  | .ok c => c.initialized
  | _ => false

/-! Stepping lemmas: how each connector operation behaves on each transport
state, proved once and reused in the claim theorems. -/

theorem send_request_open {c : LspConnector} (r : Request) (h : c.outClosed = false) :
    c.send_request r = .ok { c with sent := c.sent ++ [r] } := by
  simp [LspConnector.send_request, h]

theorem send_request_closed {c : LspConnector} (r : Request) (h : c.outClosed = true) :
    c.send_request r = .panic "tx.send failed" := by
  simp [LspConnector.send_request, h]

theorem recv_cons {c : LspConnector} {f : Frame} {rest : List Frame}
    (h : c.inbox = f :: rest) : c.recv = .ok f { c with inbox := rest } := by
  rw [LspConnector.recv, h]

theorem recv_closed {c : LspConnector} (h : c.inbox = []) (hc : c.inClosed = true) :
    c.recv = .err := by
  rw [LspConnector.recv, h]
  simp [hc]

theorem recv_open_empty {c : LspConnector} (h : c.inbox = []) (hc : c.inClosed = false) :
    c.recv = .blocked := by
  rw [LspConnector.recv, h]
  simp [hc]

/-- A successful `init` sends exactly the three handshake messages in
order, consumes exactly one inbound frame (between the first and second
message), and sets the flag. -/
theorem init_open_cons {c : LspConnector} {f : Frame} {rest : List Frame}
    (text : String) (ho : c.outClosed = false) (hin : c.inbox = f :: rest) :
    c.init text = .ok { c with
      initialized := true,
      sent := c.sent ++ [initRequest, initedNotification,
        didOpenNotification c.lang c.filename text],
      inbox := rest } := by
  obtain ⟨ci, co, cs, cin, cic, cl, cf⟩ := c
  simp only at ho hin
  subst ho
  subst hin
  simp [LspConnector.init, LspConnector.send_request, LspConnector.recv, Outcome.bind]

theorem init_out_closed {c : LspConnector} (text : String) (ho : c.outClosed = true) :
    c.init text = .panic "tx.send failed" := by
  rw [LspConnector.init, send_request_closed _ ho]
  rfl

theorem init_in_dead {c : LspConnector} (text : String) (ho : c.outClosed = false)
    (hin : c.inbox = []) (hic : c.inClosed = true) :
    c.init text = .panic "Result::unwrap on Err" := by
  have h2 : ({ c with
      sent := c.sent ++ [initRequest] } : LspConnector).recv = .err :=
    recv_closed hin hic
  rw [LspConnector.init, send_request_open _ ho]
  show (match LspConnector.recv _ with
    | .err => Outcome.panic "Result::unwrap on Err"
    | .blocked => Outcome.blocked
    | .ok _ c2 => _) = _
  rw [h2]

theorem init_in_open_empty {c : LspConnector} (text : String) (ho : c.outClosed = false)
    (hin : c.inbox = []) (hic : c.inClosed = false) :
    c.init text = .blocked := by
  have h2 : ({ c with
      sent := c.sent ++ [initRequest] } : LspConnector).recv = .blocked :=
    recv_open_empty hin hic
  rw [LspConnector.init, send_request_open _ ho]
  show (match LspConnector.recv _ with
    | .err => Outcome.panic "Result::unwrap on Err"
    | .blocked => Outcome.blocked
    | .ok _ c2 => _) = _
  rw [h2]

theorem hover_open_cons {c : LspConnector} {f : Frame} {rest : List Frame}
    (line character : Nat) (ho : c.outClosed = false) (hin : c.inbox = f :: rest) :
    c.hover line character = .ok (decodeHover f, { c with
      sent := c.sent ++ [hoverRequest c.filename line character],
      inbox := rest }) := by
  have h2 : ({ c with
      sent := c.sent ++ [hoverRequest c.filename line character] }
        : LspConnector).recv
      = .ok f { c with
          sent := c.sent ++ [hoverRequest c.filename line character],
          inbox := rest } :=
    recv_cons hin
  rw [LspConnector.hover, send_request_open _ ho]
  show (match LspConnector.recv _ with
    | .ok f c2 => Outcome.ok (decodeHover f, c2)
    | .err => _
    | .blocked => Outcome.blocked) = _
  rw [h2]

theorem hover_out_closed {c : LspConnector} (line character : Nat)
    (ho : c.outClosed = true) :
    c.hover line character = .panic "tx.send failed" := by
  rw [LspConnector.hover, send_request_closed _ ho]
  rfl

theorem hover_in_dead {c : LspConnector} (line character : Nat)
    (ho : c.outClosed = false) (hin : c.inbox = []) (hic : c.inClosed = true) :
    c.hover line character = .ok (none, { c with
      sent := c.sent ++ [hoverRequest c.filename line character] }) := by
  have h2 : ({ c with
      sent := c.sent ++ [hoverRequest c.filename line character] }
        : LspConnector).recv = .err :=
    recv_closed hin hic
  rw [LspConnector.hover, send_request_open _ ho]
  show (match LspConnector.recv _ with
    | .ok f c2 => Outcome.ok (decodeHover f, c2)
    | .err => Outcome.ok (none, _)
    | .blocked => Outcome.blocked) = _
  rw [h2]

theorem hover_in_open_empty {c : LspConnector} (line character : Nat)
    (ho : c.outClosed = false) (hin : c.inbox = []) (hic : c.inClosed = false) :
    c.hover line character = .blocked := by
  have h2 : ({ c with
      sent := c.sent ++ [hoverRequest c.filename line character] }
        : LspConnector).recv = .blocked :=
    recv_open_empty hin hic
  rw [LspConnector.hover, send_request_open _ ho]
  show (match LspConnector.recv _ with
    | .ok f c2 => Outcome.ok (decodeHover f, c2)
    | .err => Outcome.ok (none, _)
    | .blocked => Outcome.blocked) = _
  rw [h2]

theorem renderHover_lsp (d : Document) (x y : Nat) (res : Option Hover × LspConnector) :
    (renderHover d x y res).lsp = some res.2 := by
  rcases res with ⟨r, c2⟩
  rcases r with _ | h
  · rfl
  · rcases h with ⟨contents, range⟩
    rcases contents with m | ms | mc <;> rfl

theorem renderHover_floatings_not_markup (d : Document) (x y : Nat)
    (res : Option Hover × LspConnector)
    (h : ∀ mc range, res.1 ≠ some ⟨.markup mc, range⟩) :
    (renderHover d x y res).floatings = d.floatings := by
  rcases res with ⟨r, c2⟩
  rcases r with _ | hov
  · rfl
  · rcases hov with ⟨contents, range⟩
    rcases contents with m | ms | mc
    · rfl
    · rfl
    · exact absurd rfl (h mc range)

theorem renderHover_floatings_markup (d : Document) (x y : Nat)
    (res : Option Hover × LspConnector) (mc : MarkupContent)
    (range : Option LspRange) (h : res.1 = some ⟨.markup mc, range⟩) :
    ∃ item, (renderHover d x y res).floatings = [item] := by
  rcases res with ⟨r, c2⟩
  simp only at h
  subst h
  exact ⟨_, rfl⟩

/-- On a document with an initialized connector, hover does not re-run the
handshake: the session just performs the hover exchange. -/
theorem document_hover_initialized (rows : List String) (fl : List FloatingItem)
    (c : LspConnector) (x y : Nat) (hinit : c.initialized = true) :
    Document.hover ⟨rows, fl, some c⟩ x y
      = (c.hover y x).bind fun res => .ok (renderHover ⟨rows, fl, some c⟩ x y res) := by
  rw [Document.hover]
  show Outcome.bind (if ¬ c.is_initialized then _ else Outcome.ok c) _ = _
  rw [LspConnector.is_initialized, hinit]
  rfl

/-- On a document with an uninitialized connector, hover first runs the
full handshake on the rows joined with CRLF, then the hover exchange. -/
theorem document_hover_uninitialized (rows : List String) (fl : List FloatingItem)
    (c : LspConnector) (x y : Nat) (hinit : c.initialized = false) :
    Document.hover ⟨rows, fl, some c⟩ x y
      = (c.init (String.intercalate "\r\n" rows)).bind fun lsp1 =>
          (lsp1.hover y x).bind fun res =>
            .ok (renderHover ⟨rows, fl, some c⟩ x y res) := by
  rw [Document.hover]
  show Outcome.bind (if ¬ c.is_initialized then _ else Outcome.ok c) _ = _
  rw [LspConnector.is_initialized, hinit]
  rfl

/-! ## C1: idempotence of init -/

def c1Conn : LspConnector := mkConn "rust" "/home/u/f.rs" [okReply, okReply]

def afterTwoInits : Outcome LspConnector :=
  (c1Conn.init "fn main() {}").bind fun c1 => c1.init "fn main() {}"

/-- C1 (counterexample): `LspConnector::init` is not idempotent.  On a
connector whose first `init` completed (flag set, one handshake sent), a
second call re-performs the entire handshake: three further messages go
out, for six in total. -/
theorem connector_init_not_idempotent :
    initializedOf (c1Conn.init "fn main() {}") = true
    ∧ sentMethodsOf (c1Conn.init "fn main() {}")
        = ["initialize", "initialized", "textDocument/didOpen"]
    ∧ sentMethodsOf afterTwoInits
        = ["initialize", "initialized", "textDocument/didOpen",
           "initialize", "initialized", "textDocument/didOpen"] :=
  ⟨rfl, rfl, rfl⟩

/-- C1 (amended): `LspConnector::init` itself has no initialized-guard;
idempotence holds one level up.  (1) A completed `init` always leaves the
connector `Initialized`; (2) `Document::hover` calls `init` only while the
connector is uninitialized, so on an initialized connector a hover adds
exactly the hover request and no further handshake traffic. -/
theorem init_idempotent_at_document_level :
    (∀ (c0 : LspConnector) (text : String) (c1 : LspConnector),
        c0.init text = .ok c1 → c1.initialized = true)
    ∧ (∀ (d : Document) (c : LspConnector) (x y : Nat) (f : Frame)
        (rest : List Frame),
        d.lsp = some c → c.initialized = true → c.outClosed = false →
        c.inbox = f :: rest →
        ∃ d' c', d.hover x y = .ok d' ∧ d'.lsp = some c'
          ∧ c'.sent = c.sent ++ [hoverRequest c.filename y x]
          ∧ c'.initialized = true) := by
  constructor
  · intro c0 text c1 h
    by_cases ho : c0.outClosed
    · rw [init_out_closed text ho] at h
      exact absurd h (by intro hc; cases hc)
    · rw [Bool.not_eq_true] at ho
      rcases hin : c0.inbox with _ | ⟨f, rest⟩
      · by_cases hic : c0.inClosed
        · rw [init_in_dead text ho hin hic] at h
          exact absurd h (by intro hc; cases hc)
        · rw [Bool.not_eq_true] at hic
          rw [init_in_open_empty text ho hin hic] at h
          exact absurd h (by intro hc; cases hc)
      · rw [init_open_cons text ho hin] at h
        cases h
        rfl
  · intro d c x y f rest hc hinit hopen hin
    obtain ⟨rows, fl, lsp⟩ := d
    simp only at hc
    subst hc
    rw [document_hover_initialized rows fl c x y hinit,
      hover_open_cons y x hopen hin]
    refine ⟨_, _, rfl, renderHover_lsp _ _ _ _, rfl, hinit⟩

theorem init_idempotent_at_document_level_witness :
    (∃ c1, (mkConn "rust" "f.rs" [okReply]).init "x" = .ok c1)
    ∧ (∃ d' c',
        Document.hover ⟨["x"], [], some
          { initialized := true, outClosed := false, sent := [],
            inbox := [okReply], inClosed := false,
            lang := "rust", filename := "f.rs" }⟩ 2 3 = .ok d'
        ∧ d'.lsp = some c'
        ∧ c'.sent = [] ++ [hoverRequest "f.rs" 3 2]
        ∧ c'.initialized = true) := by
  constructor
  · exact ⟨_, rfl⟩
  · obtain ⟨d', c', h1, h2, h3, h4⟩ :=
      init_idempotent_at_document_level.2
        ⟨["x"], [], some
          { initialized := true, outClosed := false, sent := [],
            inbox := [okReply], inClosed := false,
            lang := "rust", filename := "f.rs" }⟩
        { initialized := true, outClosed := false, sent := [],
          inbox := [okReply], inClosed := false,
          lang := "rust", filename := "f.rs" }
        2 3 okReply [] rfl rfl rfl rfl
    exact ⟨d', c', h1, h2, h3, h4⟩

/-! ## C3: hover never raises into the caller -/

def deadWriteConn : LspConnector :=
  { initialized := true, outClosed := true, sent := [], inbox := [],
    inClosed := false, lang := "rust", filename := "f.rs" }

def deadReadConn : LspConnector :=
  { initialized := true, outClosed := false, sent := [], inbox := [],
    inClosed := true, lang := "rust", filename := "f.rs" }

/-- C3 (counterexample): with a dead write pump (closed outbound queue) the
`self.tx.send(payload).unwrap()` inside `send_request` panics, and that
panic propagates out of `hover` into the caller — the claim's "never
propagates a failure, for every connector state" is false. -/
theorem hover_panics_on_dead_write_pump :
    deadWriteConn.hover 3 5 = .panic "tx.send failed" :=
  hover_out_closed 3 5 rfl

/-- C3 (amended): hover propagates no failure as long as the outbound queue
is open: it returns `ok` (Some or None) or blocks in the poll loop; in
particular a dead read pump (closed inbound queue) is absorbed into `None`
(`recv().unwrap_or_default()` makes the reply the empty string, which fails
to parse).  Only a dead write pump makes it panic. -/
theorem hover_no_panic_when_outbound_open (c : LspConnector)
    (line character : Nat) (hopen : c.outClosed = false) :
    ((∃ r c', c.hover line character = .ok (r, c'))
      ∨ c.hover line character = .blocked)
    ∧ (c.inbox = [] → c.inClosed = true →
        c.hover line character = .ok (none, { c with
          sent := c.sent ++ [hoverRequest c.filename line character] })) := by
  constructor
  · rcases hin : c.inbox with _ | ⟨f, rest⟩
    · cases hic : c.inClosed with
      | true => exact Or.inl ⟨none, _, hover_in_dead line character hopen hin hic⟩
      | false => exact Or.inr (hover_in_open_empty line character hopen hin hic)
    · exact Or.inl ⟨decodeHover f, _, hover_open_cons line character hopen hin⟩
  · intro hin hic
    exact hover_in_dead line character hopen hin hic

theorem hover_no_panic_when_outbound_open_witness :
    ((∃ r c', deadReadConn.hover 1 2 = .ok (r, c'))
      ∨ deadReadConn.hover 1 2 = .blocked)
    ∧ (deadReadConn.inbox = [] → deadReadConn.inClosed = true →
        deadReadConn.hover 1 2 = .ok (none, { deadReadConn with
          sent := deadReadConn.sent
            ++ [hoverRequest deadReadConn.filename 1 2] })) :=
  hover_no_panic_when_outbound_open deadReadConn 1 2 rfl

/-! ## C4: the three handshake messages -/

/-- The claim's notion "capabilities are limited to hover with plain-text
content format", stated from the claim's words: every capability other than
hover is absent and hover asks for plain-text content. -/
def capsLimitedToHover (caps : ClientCapabilities) : Prop :=
  caps.workspace = none ∧ caps.window = none ∧ caps.general = none
  ∧ caps.experimental = none
  ∧ ∃ td, caps.text_document = some td
    ∧ td.synchronization = none ∧ td.completion = none ∧ td.signature_help = none
    ∧ td.references = none ∧ td.document_highlight = none
    ∧ td.document_symbol = none ∧ td.formatting = none
    ∧ td.range_formatting = none ∧ td.on_type_formatting = none
    ∧ td.declaration = none ∧ td.definition = none ∧ td.type_definition = none
    ∧ td.implementation = none ∧ td.code_action = none ∧ td.code_lens = none
    ∧ td.document_link = none ∧ td.color_provider = none ∧ td.rename = none
    ∧ td.publish_diagnostics = none ∧ td.folding_range = none
    ∧ td.selection_range = none ∧ td.linked_editing_range = none
    ∧ td.call_hierarchy = none ∧ td.semantic_tokens = none ∧ td.moniker = none
    ∧ td.type_hierarchy = none ∧ td.inline_value = none ∧ td.inlay_hint = none
    ∧ td.diagnostic = none
    ∧ ∃ h, td.hover = some h ∧ h.content_format = some [MarkupKind.plainText]

/-- C4 (counterexample): the capabilities sent by `init` are not limited to
hover — they also advertise workspace folders and text-document
synchronization — and the `initialized` notification carries params (the
empty object), not "no params". -/
theorem init_caps_counterexample :
    ¬ capsLimitedToHover initCapabilities
    ∧ (∃ w, initCapabilities.workspace = some w ∧ w.workspace_folders = some true)
    ∧ (∃ td sync, initCapabilities.text_document = some td
        ∧ td.synchronization = some sync ∧ sync.dynamic_registration = some true)
    ∧ initedNotification.params = some Params.inited := by
  refine ⟨?_, ⟨_, rfl, rfl⟩, ⟨_, _, rfl, rfl, rfl⟩, rfl⟩
  intro hcl
  exact absurd hcl.1 (by simp [initCapabilities])

/-- C4 (amended): init enqueues exactly three messages, in order: the
"initialize" request with id 0 carrying `initCapabilities` (hover with
plain-text content format, but also workspace folders and text-document
synchronization); then — only after one inbound frame has been consumed
(`inbox := rest`) — the "initialized" notification, whose params field is
the empty object `InitializedParams {}` rather than absent; then the
"textDocument/didOpen" notification with uri `file:///` + the absolute
path, the language identifier, version 0, and the full document text. -/
theorem init_handshake_messages (c : LspConnector) (text : String) (f : Frame)
    (rest : List Frame) (hopen : c.outClosed = false) (hin : c.inbox = f :: rest) :
    c.init text = .ok { c with
      initialized := true,
      sent := c.sent ++ [initRequest, initedNotification,
        didOpenNotification c.lang c.filename text],
      inbox := rest }
    ∧ initRequest.method = "initialize" ∧ initRequest.id = some 0
    ∧ initRequest.params = some (.initParams initCapabilities)
    ∧ initedNotification.method = "initialized" ∧ initedNotification.id = none
    ∧ initedNotification.params = some .inited
    ∧ (didOpenNotification c.lang c.filename text).method = "textDocument/didOpen"
    ∧ (didOpenNotification c.lang c.filename text).id = none
    ∧ (didOpenNotification c.lang c.filename text).params
        = some (.didOpen ("file:///" ++ c.filename) c.lang 0 text) :=
  ⟨init_open_cons text hopen hin, rfl, rfl, rfl, rfl, rfl, rfl, rfl, rfl, rfl⟩

theorem init_handshake_messages_witness :
    (mkConn "rust" "f.rs" [okReply]).init "txt" = .ok
      { mkConn "rust" "f.rs" [okReply] with
        initialized := true,
        sent := (mkConn "rust" "f.rs" [okReply]).sent
          ++ [initRequest, initedNotification,
            didOpenNotification (mkConn "rust" "f.rs" [okReply]).lang
              (mkConn "rust" "f.rs" [okReply]).filename "txt"],
        inbox := [] } :=
  (init_handshake_messages (mkConn "rust" "f.rs" [okReply]) "txt" okReply [] rfl rfl).1

/-! ## C7: replies with unmatched ids -/

/-- A reply whose id (99) matches no outstanding request (init uses 0,
hover uses 1). -/
def strayIdFrame : Frame := .json (.obj
  [("jsonrpc", .str "2.0"), ("id", .num 99),
   ("result", .obj [("contents", .obj
     [("kind", .str "markdown"), ("value", .str "docs")])])])

def strayConn : LspConnector :=
  { initialized := true, outClosed := false, sent := [], inbox := [strayIdFrame],
    inClosed := false, lang := "rust", filename := "f.rs" }

/-- C7 (counterexample): the Session performs no id correlation at all
(`Response` does not even deserialize the id).  A reply with id 99 is not
ignored: a pending hover (fixed id 1) consumes it and happily decodes it
into a hover payload. -/
theorem stray_id_reply_consumed :
    decodeHover strayIdFrame = some ⟨.markup ⟨.markdown, "docs"⟩, none⟩
    ∧ strayConn.hover 0 0 = .ok (some ⟨.markup ⟨.markdown, "docs"⟩, none⟩,
        { strayConn with
          sent := [hoverRequest "f.rs" 0 0],
          inbox := [] }) :=
  ⟨rfl, rfl⟩

/-- C7 (amended): a reply frame with an unmatched id never panics the
Session — the id is never inspected — but it is not ignored either: `recv`
hands the pending exchange whatever frame arrives next, and the exchange's
outcome is exactly the decoding of that frame. -/
theorem replies_consumed_without_id_check (c : LspConnector)
    (line character : Nat) (f : Frame) (rest : List Frame)
    (hopen : c.outClosed = false) (hin : c.inbox = f :: rest) :
    c.hover line character = .ok (decodeHover f, { c with
      sent := c.sent ++ [hoverRequest c.filename line character],
      inbox := rest }) :=
  hover_open_cons line character hopen hin

def w7Conn : LspConnector :=
  { initialized := true, outClosed := false, sent := [],
    inbox := [.json (.num 42)], inClosed := false, lang := "rs",
    filename := "g.rs" }

theorem replies_consumed_without_id_check_witness :
    w7Conn.hover 2 7 = .ok (decodeHover (.json (.num 42)), { w7Conn with
      sent := w7Conn.sent ++ [hoverRequest w7Conn.filename 2 7],
      inbox := [] }) :=
  replies_consumed_without_id_check w7Conn 2 7 (.json (.num 42)) [] rfl rfl

/-! ## C9: a dead transport never hangs a pending wait -/

/-- C9: with the inbound queue exhausted and closed (the read pump died),
the very first poll of the wait loop reports the transport failure — one
poll interval, no sleep — `recv` surfaces an error, and neither init nor
hover can block; with the queue exhausted but open, every poll keeps
sleeping and retrying, forever. -/
theorem dead_transport_resolves_within_one_poll (c : LspConnector)
    (hempty : c.inbox = []) :
    (c.inClosed = true →
        recvLoop 1 c = some (.error "Failed to receive LSP response")
        ∧ c.recv = .err
        ∧ (∀ text, c.init text ≠ .blocked)
        ∧ (∀ line character, c.hover line character ≠ .blocked))
    ∧ (c.inClosed = false → ∀ fuel, recvLoop fuel c = none) := by
  constructor
  · intro hic
    refine ⟨?_, recv_closed hempty hic, ?_, ?_⟩
    · rw [recvLoop]
      simp [hempty, hic]
    · intro text
      cases hb : c.outClosed with
      | false =>
        rw [init_in_dead text hb hempty hic]
        intro hcon
        cases hcon
      | true =>
        rw [init_out_closed text hb]
        intro hcon
        cases hcon
    · intro line character
      cases hb : c.outClosed with
      | false =>
        rw [hover_in_dead line character hb hempty hic]
        intro hcon
        cases hcon
      | true =>
        rw [hover_out_closed line character hb]
        intro hcon
        cases hcon
  · intro hic fuel
    induction fuel with
    | zero => rfl
    | succ fuel ih =>
      rw [recvLoop]
      simp [hempty, hic, ih]

theorem dead_transport_resolves_within_one_poll_witness :
    (deadReadConn.inClosed = true →
        recvLoop 1 deadReadConn = some (.error "Failed to receive LSP response")
        ∧ deadReadConn.recv = .err
        ∧ (∀ text, deadReadConn.init text ≠ .blocked)
        ∧ (∀ line character, deadReadConn.hover line character ≠ .blocked))
    ∧ (deadReadConn.inClosed = false → ∀ fuel, recvLoop fuel deadReadConn = none) :=
  dead_transport_resolves_within_one_poll deadReadConn rfl

/-! ## C8: only a single markup block is rendered -/

def num42Frame : Frame := .json (.obj
  [("jsonrpc", .str "2.0"), ("id", .num 1), ("result", .num 42)])

def errFrame : Frame := .json (.obj
  [("jsonrpc", .str "2.0"), ("id", .num 1),
   ("error", .obj [("code", .num (-32601)), ("message", .str "no such method")])])

def scalarFrame : Frame := .json (.obj
  [("jsonrpc", .str "2.0"), ("id", .num 1),
   ("result", .obj [("contents", .str "int")])])

/-- C8: end to end, a hover reply produces a tooltip exactly when its
result decodes to a hover whose contents is a single markup block; every
other shape — a scalar string (which the connector still decodes, but the
document's `Scalar` arm drops), an array of marked strings, a non-object
result such as 42, an error-shaped reply, or an unparsable reply — leaves
the floatings untouched and raises no error. -/
theorem hover_reply_rendered_only_for_markup (d : Document) (c : LspConnector)
    (x y : Nat) (f : Frame) (rest : List Frame) (hc : d.lsp = some c)
    (hinit : c.initialized = true) (hopen : c.outClosed = false)
    (hin : c.inbox = f :: rest) :
    (∃ d', d.hover x y = .ok d'
      ∧ ((∃ mc range, decodeHover f = some ⟨.markup mc, range⟩) →
          ∃ item, d'.floatings = [item])
      ∧ ((∀ mc range, decodeHover f ≠ some ⟨.markup mc, range⟩) →
          d'.floatings = d.floatings))
    ∧ decodeHover num42Frame = none
    ∧ decodeHover errFrame = none
    ∧ decodeHover (.malformed "not json") = none
    ∧ (∃ m, decodeHover scalarFrame = some ⟨.scalar m, none⟩) := by
  refine ⟨?_, rfl, rfl, rfl, ⟨.str "int", rfl⟩⟩
  obtain ⟨rows, fl, lsp⟩ := d
  simp only at hc
  subst hc
  rw [document_hover_initialized rows fl c x y hinit,
    hover_open_cons y x hopen hin]
  refine ⟨_, rfl, ?_, ?_⟩
  · rintro ⟨mc, range, hmc⟩
    exact renderHover_floatings_markup _ _ _ _ mc range hmc
  · intro hne
    exact renderHover_floatings_not_markup _ _ _ _ fun mc range => hne mc range

def c8Conn : LspConnector :=
  { initialized := true, outClosed := false, sent := [], inbox := [num42Frame],
    inClosed := false, lang := "rust", filename := "f.rs" }

theorem hover_reply_rendered_only_for_markup_witness :
    (∃ d', Document.hover ⟨["r"], [], some c8Conn⟩ 1 1 = .ok d'
      ∧ ((∃ mc range, decodeHover num42Frame = some ⟨.markup mc, range⟩) →
          ∃ item, d'.floatings = [item])
      ∧ ((∀ mc range, decodeHover num42Frame ≠ some ⟨.markup mc, range⟩) →
          d'.floatings = (⟨["r"], [], some c8Conn⟩ : Document).floatings))
    ∧ decodeHover num42Frame = none
    ∧ decodeHover errFrame = none
    ∧ decodeHover (.malformed "not json") = none
    ∧ (∃ m, decodeHover scalarFrame = some ⟨.scalar m, none⟩) :=
  hover_reply_rendered_only_for_markup ⟨["r"], [], some c8Conn⟩ c8Conn 1 1
    num42Frame [] rfl rfl rfl rfl

/-! ## C10: hover on an uninitialized connector inits first -/

/-- C10: a hover on a document whose connector is still uninitialized first
performs the full handshake — the didOpen text is the document's rows
joined with CRLF — and only then issues the hover exchange: the traffic is
exactly initialize, initialized, didOpen, hover, in order.  The hover
exchange always takes place (it is never skipped, and a well-formed markup
reply produces a tooltip on this very first call). -/
theorem hover_before_init_triggers_handshake (rows : List String)
    (fl : List FloatingItem) (lang fn : String) (f1 f2 : Frame)
    (rest : List Frame) (x y : Nat) :
    ∃ d' c', Document.hover ⟨rows, fl, some (mkConn lang fn (f1 :: f2 :: rest))⟩ x y
        = .ok d'
      ∧ d'.lsp = some c'
      ∧ c'.initialized = true
      ∧ c'.sent = [initRequest, initedNotification,
          didOpenNotification lang fn (String.intercalate "\r\n" rows),
          hoverRequest fn y x]
      ∧ c'.inbox = rest
      ∧ ((∃ mc range, decodeHover f2 = some ⟨.markup mc, range⟩) →
          ∃ item, d'.floatings = [item]) := by
  rw [document_hover_uninitialized rows fl _ x y rfl,
    init_open_cons (String.intercalate "\r\n" rows) rfl rfl]
  simp only [Outcome.bind]
  rw [hover_open_cons y x rfl rfl]
  simp only [Outcome.bind]
  refine ⟨_, _, rfl, renderHover_lsp _ _ _ _, rfl, by simp [mkConn], rfl, ?_⟩
  rintro ⟨mc, range, hmc⟩
  exact renderHover_floatings_markup _ _ _ _ mc range hmc

end NeoNano
